import Mathlib

/-!
Verification of the LAD-A2A reference implementation (client `lad_client.py`,
common `signing.py`, server `lad_server.py`) against its specification.

The Python code is shallowly embedded as follows.

* JSON values (Python dicts produced by `response.json()` and the AgentCard
  payloads) are the inductive type `Json`.
* Effectful boundaries are passed in as explicit inputs: HTTP responses,
  mDNS discovery outcomes, the key files on disk (as maps from path to key),
  and the current time.
* A Python function that can raise an uncaught exception is embedded as a
  function into `Except String α`; `Except.error` models an exception
  propagating to the caller, `Except.ok` a normal return.
* The third-party `pyjwt`/`cryptography` layer is embedded symbolically, as
  is standard for protocol verification: an ES256 key pair is identified by
  a pair id, a compact JWS token is a record of its protected header, its
  payload segment (the base64url-encoded JSON segment is identified with the
  claims it encodes, since that serialization is injective) and its
  signature, and a signature is a record of the signing key's pair id and
  the exact signing input (header and payload segment) it covers.
  `jwtDecode` accepts a signature exactly when its key pair matches the
  supplied public key and its signing input equals the token's actual
  header and payload, which is the defining property of the real scheme.
  Tampering with the payload segment of a token is modelled as replacing
  the payload segment's content by any different value.
-/

deriving instance DecidableEq for Except

namespace LadA2A

/-! ## JSON values -/

/-- A JSON value, as produced by Python's `json` module: `response.json()`
bodies, AgentCard dictionaries and JWT claim values are all of this type. -/
inductive Json where
  | null
  | bool (b : Bool)
  | num (n : Int)
  | str (s : String)
  | arr (elems : List Json)
  | obj (fields : List (String × Json))

mutual

/-- Structural equality of JSON values (Python `==` on parsed JSON). -/
def Json.beq : Json → Json → Bool
  | .null, .null => true
  | .bool a, .bool b => a == b
  | .num a, .num b => a == b
  | .str a, .str b => a == b
  | .arr a, .arr b => Json.beqList a b
  | .obj a, .obj b => Json.beqFields a b
  | _, _ => false

def Json.beqList : List Json → List Json → Bool
  | [], [] => true
  | x :: xs, y :: ys => Json.beq x y && Json.beqList xs ys
  | _, _ => false

def Json.beqFields : List (String × Json) → List (String × Json) → Bool
  | [], [] => true
  | (k1, v1) :: xs, (k2, v2) :: ys => k1 == k2 && Json.beq v1 v2 && Json.beqFields xs ys
  | _, _ => false

end

mutual

theorem Json.beq_refl : ∀ a : Json, Json.beq a a = true
  | .null => rfl
  | .bool b => by simp [Json.beq]
  | .num n => by simp [Json.beq]
  | .str s => by simp [Json.beq]
  | .arr xs => by simp [Json.beq, Json.beqList_refl xs]
  | .obj fs => by simp [Json.beq, Json.beqFields_refl fs]

theorem Json.beqList_refl : ∀ xs : List Json, Json.beqList xs xs = true
  | [] => rfl
  | x :: xs => by simp [Json.beqList, Json.beq_refl x, Json.beqList_refl xs]

theorem Json.beqFields_refl : ∀ xs : List (String × Json), Json.beqFields xs xs = true
  | [] => rfl
  | (k, v) :: xs => by simp [Json.beqFields, Json.beq_refl v, Json.beqFields_refl xs]

end

mutual

theorem Json.eq_of_beq : ∀ a b : Json, Json.beq a b = true → a = b
  | .null, .null, _ => rfl
  | .bool a, .bool b, h => by simp [Json.beq] at h; simp [h]
  | .num a, .num b, h => by simp [Json.beq] at h; simp [h]
  | .str a, .str b, h => by simp [Json.beq] at h; simp [h]
  | .arr a, .arr b, h => by
      simp only [Json.beq] at h
      simp [Json.eqList_of_beq a b h]
  | .obj a, .obj b, h => by
      simp only [Json.beq] at h
      simp [Json.eqFields_of_beq a b h]
  | .null, .bool _, h => by simp [Json.beq] at h
  | .null, .num _, h => by simp [Json.beq] at h
  | .null, .str _, h => by simp [Json.beq] at h
  | .null, .arr _, h => by simp [Json.beq] at h
  | .null, .obj _, h => by simp [Json.beq] at h
  | .bool _, .null, h => by simp [Json.beq] at h
  | .bool _, .num _, h => by simp [Json.beq] at h
  | .bool _, .str _, h => by simp [Json.beq] at h
  | .bool _, .arr _, h => by simp [Json.beq] at h
  | .bool _, .obj _, h => by simp [Json.beq] at h
  | .num _, .null, h => by simp [Json.beq] at h
  | .num _, .bool _, h => by simp [Json.beq] at h
  | .num _, .str _, h => by simp [Json.beq] at h
  | .num _, .arr _, h => by simp [Json.beq] at h
  | .num _, .obj _, h => by simp [Json.beq] at h
  | .str _, .null, h => by simp [Json.beq] at h
  | .str _, .bool _, h => by simp [Json.beq] at h
  | .str _, .num _, h => by simp [Json.beq] at h
  | .str _, .arr _, h => by simp [Json.beq] at h
  | .str _, .obj _, h => by simp [Json.beq] at h
  | .arr _, .null, h => by simp [Json.beq] at h
  | .arr _, .bool _, h => by simp [Json.beq] at h
  | .arr _, .num _, h => by simp [Json.beq] at h
  | .arr _, .str _, h => by simp [Json.beq] at h
  | .arr _, .obj _, h => by simp [Json.beq] at h
  | .obj _, .null, h => by simp [Json.beq] at h
  | .obj _, .bool _, h => by simp [Json.beq] at h
  | .obj _, .num _, h => by simp [Json.beq] at h
  | .obj _, .str _, h => by simp [Json.beq] at h
  | .obj _, .arr _, h => by simp [Json.beq] at h

theorem Json.eqList_of_beq : ∀ a b : List Json, Json.beqList a b = true → a = b
  | [], [], _ => rfl
  | [], _ :: _, h => by simp [Json.beqList] at h
  | _ :: _, [], h => by simp [Json.beqList] at h
  | x :: xs, y :: ys, h => by
      simp only [Json.beqList, Bool.and_eq_true] at h
      simp [Json.eq_of_beq x y h.1, Json.eqList_of_beq xs ys h.2]

theorem Json.eqFields_of_beq :
    ∀ a b : List (String × Json), Json.beqFields a b = true → a = b
  | [], [], _ => rfl
  | [], _ :: _, h => by simp [Json.beqFields] at h
  | _ :: _, [], h => by simp [Json.beqFields] at h
  | (k1, v1) :: xs, (k2, v2) :: ys, h => by
      simp only [Json.beqFields, Bool.and_eq_true] at h
      obtain ⟨⟨hk, hv⟩, hrest⟩ := h
      simp only [beq_iff_eq] at hk
      simp [hk, Json.eq_of_beq v1 v2 hv, Json.eqFields_of_beq xs ys hrest]

end

instance : DecidableEq Json := fun a b =>
  decidable_of_iff (Json.beq a b = true)
    ⟨Json.eq_of_beq a b, fun h => h ▸ Json.beq_refl a⟩

/-- Python `dict.get(key)` on a JSON object: `none` when the value is not an
object or the key is absent. -/
def Json.getField : Json → String → Option Json
  | .obj fields, k => fields.lookup k
  | _, _ => none

/-- Python truthiness of a JSON value (`if value:`): empty containers, empty
strings, zero, `False` and `None` are falsy. -/
def jsonTruthy : Json → Bool
  | .null => false
  | .bool b => b
  | .num n => n != 0
  | .str s => s != ""
  | .arr xs => !xs.isEmpty
  | .obj fields => !fields.isEmpty

/-- Python truthiness of an optional JSON value (`if agent.agent_card:`). -/
def cardTruthy : Option Json → Bool
  | none => false
  | some v => jsonTruthy v

/-! ## Python string helpers

These replicate the Python string operations the client uses.  They work on
`List Char` so that all of them evaluate inside `decide`. -/

/-- Python `str.lower()` (over the ASCII range used by the code). -/
def pyLower (s : String) : String := ⟨s.data.map Char.toLower⟩

/-- Python `str.replace(" ", "")`. -/
def pyRemoveSpaces (s : String) : String := ⟨s.data.filter (fun c => c != ' ')⟩

def charsIsInfix (needle : List Char) : List Char → Bool
  | [] => needle.isEmpty
  | c :: rest => needle.isPrefixOf (c :: rest) || charsIsInfix needle rest

/-- Python `needle in hay` on strings (substring containment). -/
def pyContains (hay needle : String) : Bool := charsIsInfix needle.data hay.data

/-- Python `hay.endswith(needle)`. -/
def pyEndsWith (hay needle : String) : Bool := needle.data.isSuffixOf hay.data

/-- Python `hay.startswith(needle)`. -/
def pyStartsWith (hay needle : String) : Bool := needle.data.isPrefixOf hay.data

/-- Python `s.rstrip(c)`. -/
def pyRstrip (s : String) (c : Char) : String :=
  ⟨(s.data.reverse.dropWhile (fun x => x == c)).reverse⟩

def authorityChars : List Char → Option (List Char)
  | [] => none
  | ':' :: '/' :: '/' :: rest =>
    some (rest.takeWhile (fun c => c != '/' && c != '?' && c != '#'))
  | _ :: rest => authorityChars rest

/-- Hostname of a URL of the form `scheme://host[:port]/...`:
`urlparse(url).netloc.split(":")[0]` for the absolute http(s) URLs the
system builds. -/
def urlHostname (url : String) : String :=
  match authorityChars url.data with
  | some cs => ⟨cs.takeWhile (fun c => c != ':')⟩
  | none => ""

/-! ## Signing and verification (`common/signing.py`)

The `pyjwt` + `cryptography` layer is modelled symbolically; see the header
comment of this file. -/

/-- An ECDSA P-256 private key (PEM bytes), identified by its key pair. -/
structure PrivKeyPem where
  pairId : Nat
deriving DecidableEq

/-- An ECDSA P-256 public key (PEM bytes), identified by its key pair. -/
structure PubKeyPem where
  pairId : Nat
deriving DecidableEq

/-- The key files on disk: `load_private_key` reads `privFs path`; a `none`
entry is a missing or unreadable file (so the `open` call raises). -/
def PrivKeyStore := String → Option PrivKeyPem

/-- The public key files on disk, read by `load_public_key`. -/
def PubKeyStore := String → Option PubKeyPem

/-- The protected JOSE header of a compact JWS token. -/
structure JoseHeader where
  alg : String
  kid : Option String := none
deriving DecidableEq

/-- The claims of the JWT payload segment that the system ever reads or
writes: `sign_agent_card` emits `{agent_card, iat}`, `verify_agent_card`
reads `agent_card` and `iat`, and `jwt.decode` itself checks `exp`. -/
structure JwtPayload where
  agent_card : Option Json := none
  iat : Option Int := none
  exp : Option Int := none
deriving DecidableEq

/-- An ES256 signature: produced by the key pair `pairId` over exactly the
signing input (header segment and payload segment) it covers.  Verification
against a public key succeeds if and only if the key pairs match and the
token's actual header and payload equal the signed ones. -/
structure JwsSignature where
  pairId : Nat
  signedHeader : JoseHeader
  signedPayload : JwtPayload
deriving DecidableEq

/-- A well-formed compact JWS token (three base64url segments). -/
structure JwsToken where
  header : JoseHeader
  payload : JwtPayload
  signature : JwsSignature
deriving DecidableEq

/-- A string offered to `jwt.decode`: either a well-formed compact token or
some other text (wrong number of segments, broken base64, ...). -/
inductive TokenInput where
  | malformed (text : String)
  | wellFormed (t : JwsToken)
deriving DecidableEq

/-- Model of `jwt.encode(payload, key, algorithm, headers)`. -/
def jwtEncode (payload : JwtPayload) (key : PrivKeyPem) (alg : String)
    (kid : Option String) : JwsToken :=
  let header : JoseHeader := { alg := alg, kid := kid }
  { header := header
    payload := payload
    signature := { pairId := key.pairId, signedHeader := header, signedPayload := payload } }

/-- The `pyjwt` exceptions distinguished by `verify_agent_card`'s `except`
clauses.  `invalidAlgorithm` is not one of the three named classes, so it is
caught by the final `except Exception` clause. -/
inductive JwtError where
  | expiredSignature
  | invalidSignature
  | decodeError (msg : String)
  | invalidAlgorithm
deriving DecidableEq

/-- Model of `jwt.decode(token, key, algorithms=...)`: reject tokens that do
not split into valid segments, reject disallowed algorithms, verify the
signature over the token's header and payload segments, then validate the
`exp` claim when present. -/
def jwtDecode (token : TokenInput) (key : PubKeyPem) (algorithms : List String)
    (now : Int) : Except JwtError JwtPayload :=
  match token with
  | .malformed _ => .error (.decodeError "Not enough segments")
  | .wellFormed t =>
    if t.header.alg ∈ algorithms then
      if t.signature
          = { pairId := key.pairId, signedHeader := t.header, signedPayload := t.payload } then
        match t.payload.exp with
        | some e => if e ≤ now then .error .expiredSignature else .ok t.payload
        | none => .ok t.payload
      else .error .invalidSignature
    else .error .invalidAlgorithm

/-- Python `SigningConfig` dataclass (`signing.py`, lines 36-54). -/
structure SigningConfig where
  enabled : Bool := false
  private_key_path : Option String := none
  key_id : Option String := none
  algorithm : String := "ES256"
deriving DecidableEq

/-- Python `SigningConfig.validate`: configuration is valid when signing is
disabled, or a private key path is set and the file exists. -/
def SigningConfig.validate (c : SigningConfig) (privFs : PrivKeyStore) : Bool :=
  if !c.enabled then true
  else
    match c.private_key_path with
    | none => false
    | some p => (privFs p).isSome

/-- Python `VerificationResult` dataclass (`signing.py`, lines 57-64);
`signed_at` is the `datetime` built from the `iat` Unix timestamp, kept here
as the timestamp itself. -/
structure VerificationResult where
  valid : Bool
  agent_card : Option Json := none
  error : Option String := none
  signed_at : Option Int := none
  key_id : Option String := none
deriving DecidableEq

/-- Python `sign_agent_card(agent_card, config)` (`signing.py`, lines
130-178): fails when signing is disabled or the configuration is invalid,
otherwise embeds `{agent_card, iat: now}` as the payload and signs it with
the configured algorithm, attaching the configured `kid` header. -/
def sign_agent_card (agentCard : Json) (config : SigningConfig)
    (privFs : PrivKeyStore) (now : Int) : Except String JwsToken :=
  if !config.enabled then .error "Signing is not enabled"
  else if !(config.validate privFs) then .error "Invalid signing configuration"
  else
    match config.private_key_path.bind privFs with
    | none => .error "FileNotFoundError: private key"
    | some key =>
      .ok (jwtEncode { agent_card := some agentCard, iat := some now } key
        config.algorithm config.key_id)

/-- Python `verify_agent_card(token, public_key_pem, public_key_path,
algorithms)` (`signing.py`, lines 181-241).  The key-file read for
`public_key_path` happens before the `try` block, so a missing or unreadable
file raises (`Except.error`); every `jwt` exception inside the `try` block is
converted into a `VerificationResult` with `valid := false`. -/
def verify_agent_card (token : TokenInput) (public_key_pem : Option PubKeyPem)
    (public_key_path : Option String) (algorithms : Option (List String))
    (pubFs : PubKeyStore) (now : Int) : Except String VerificationResult :=
  let algs := algorithms.getD ["ES256"]
  let loaded : Except String (Option PubKeyPem) :=
    match public_key_path, public_key_pem with
    | some path, none =>
      match pubFs path with
      | some k => .ok (some k)
      | none => .error ("FileNotFoundError: " ++ path)
    | _, pem => .ok pem
  match loaded with
  | .error e => .error e
  | .ok none =>
    .ok { valid := false, error := some "No public key provided for verification" }
  | .ok (some key) =>
    .ok
      (match jwtDecode token key algs now with
      | .ok payload =>
        { valid := true
          agent_card := payload.agent_card
          signed_at := payload.iat
          key_id :=
            match token with
            | .wellFormed t => t.header.kid
            | .malformed _ => none }
      | .error .expiredSignature => { valid := false, error := some "Token has expired" }
      | .error .invalidSignature => { valid := false, error := some "Invalid signature" }
      | .error (.decodeError m) =>
        { valid := false, error := some ("Failed to decode token: " ++ m) }
      | .error .invalidAlgorithm =>
        { valid := false
          error := some "Verification failed: The specified alg value is not allowed" })

/-! ## Discovery client (`client/lad_client.py`) -/

/-- Python `DiscoveredAgent` dataclass (`lad_client.py`, lines 48-64). -/
structure DiscoveredAgent where
  name : String
  description : String
  role : String
  agent_card_url : String
  capabilities_preview : List String := []
  source : String := "unknown"
  agent_card : Option Json := none
  verified : Bool := false
  verification_method : Option String := none
  verification_error : Option String := none
deriving DecidableEq

/-- Python `DiscoveryResult` dataclass (`lad_client.py`, lines 67-74). -/
structure DiscoveryResult where
  agents : List DiscoveredAgent := []
  network_ssid : Option String := none
  network_realm : Option String := none
  discovery_method : String := "none"
  errors : List String := []
deriving DecidableEq

/-- Python `ConsentDecision` enum (`lad_client.py`, lines 80-84). -/
inductive ConsentDecision where
  | approved
  | denied
  | deferred
deriving DecidableEq

/-- Python `ConsentRequest` dataclass (`lad_client.py`, lines 87-97). -/
structure ConsentRequest where
  agent : DiscoveredAgent
  verified : Bool
  verification_method : Option String
  capabilities : List String
deriving DecidableEq

/-- Python `ConsentResponse` dataclass (`lad_client.py`, lines 112-117). -/
structure ConsentResponse where
  decision : ConsentDecision
  remember : Bool := false
  scope : Option (List String) := none
deriving DecidableEq

/-- Python `default_consent_callback` (`lad_client.py`, lines 129-142):
approve verified agents, deny unverified ones.  Consent callbacks may be
synchronous or asynchronous in Python; both are awaited to a plain
`ConsentResponse`, so a callback is embedded as a pure function. -/
def default_consent_callback (request : ConsentRequest) : ConsentResponse :=
  if request.verified then { decision := ConsentDecision.approved }
  else { decision := ConsentDecision.denied }

/-- The `LADClient` configuration that the modelled operations read:
`verify_tls` and `signing_public_key` are constructor arguments
(`lad_client.py`, lines 230-252) and `signing_available` is the module-level
`SIGNING_AVAILABLE` import flag (lines 27-31). -/
structure LADClientCfg where
  verify_tls : Bool := true
  signing_public_key : Option String := none
  signing_available : Bool := true

/-- An agent as created by `MDNSListener.add_service` (`lad_client.py`,
lines 214-220): mDNS discoveries start unverified. -/
def mdnsDiscoveredAgent (serviceName org role url : String) : DiscoveredAgent :=
  { name := serviceName
    description := "Discovered via mDNS from " ++ org
    role := role
    agent_card_url := url
    source := "mdns" }

/-- Outcome of the single GET performed by `discover_wellknown`. -/
inductive WkResponse where
  | httpStatusError (code : Nat)
  | requestError (msg : String)
  | ok (data : Json)

/-- One element of the discovery response's `agents` array turned into a
`DiscoveredAgent` (`lad_client.py`, lines 333-344).  `agent_data["name"]`
and `agent_data["agent_card_url"]` raise `KeyError` when absent (the `for`
loop body is inside the `try` block but only `httpx` errors are caught, so
the exception escapes `discover_wellknown`); the fields are modelled as
strings, so a present but non-string value is likewise an error. -/
def parseWkAgent (used_tls verify_tls : Bool) (d : Json) : Except String DiscoveredAgent :=
  match d.getField "name", d.getField "agent_card_url" with
  | some (.str name), some (.str url) =>
    .ok
      { name := name
        description :=
          match d.getField "description" with
          | some (.str s) => s
          | _ => ""
        role :=
          match d.getField "role" with
          | some (.str s) => s
          | _ => "unknown"
        agent_card_url := url
        capabilities_preview :=
          match d.getField "capabilities_preview" with
          | some (.arr xs) =>
            xs.filterMap (fun v => match v with | .str s => some s | _ => none)
          | _ => []
        source := "wellknown"
        verified := used_tls && verify_tls
        verification_method := if used_tls && verify_tls then some "tls" else none }
  | _, _ => .error "KeyError"

/-- The `for agent_data in data.get("agents", [])` loop of
`discover_wellknown`: parse each entry in order, aborting (the whole call
raises, no partial list reaches the caller) on the first bad entry. -/
def parseWkAgents (used_tls verify_tls : Bool) :
    List Json → Except String (List DiscoveredAgent)
  | [] => .ok []
  | d :: rest =>
    match parseWkAgent used_tls verify_tls d with
    | .error e => .error e
    | .ok a =>
      match parseWkAgents used_tls verify_tls rest with
      | .error e => .error e
      | .ok tail => .ok (a :: tail)

/-- Python `LADClient.discover_wellknown` (`lad_client.py`, lines 315-355):
one GET to `{base_url}/.well-known/lad/agents`; HTTP and transport errors
are logged and re-raised; each entry of the response's `agents` array
becomes a `DiscoveredAgent` with `source = "wellknown"`, marked
`verified`/`tls` exactly when the discovery URL was https and TLS
verification is enabled. -/
def discover_wellknown (verify_tls : Bool) (base_url : String)
    (resp : WkResponse) : Except String (List DiscoveredAgent) :=
  let discovery_url := pyRstrip base_url '/' ++ "/" ++ ".well-known/lad/agents"
  let used_tls := pyStartsWith discovery_url "https://"
  match resp with
  | .httpStatusError code => .error ("HTTP error during well-known discovery: " ++ toString code)
  | .requestError m => .error ("Request error during well-known discovery: " ++ m)
  | .ok data =>
    match data with
    | .obj _ =>
      match data.getField "agents" with
      | some (.arr xs) => parseWkAgents used_tls verify_tls xs
      | none => .ok []
      | some _ => .error "TypeError"
    | _ => .error "AttributeError: get"

/-- Python `LADClient._verify_domain` (`lad_client.py`, lines 466-496):
compare the card's `provider.organization` (lower-cased, spaces removed)
with the card URL's hostname; on a substring or suffix match, upgrade to
`verified := true, method := "domain"` unless the current method is `"tls"`.
A truthy non-dict card or a truthy non-string organization would make the
Python attribute accesses raise, which the `Except.error` cases model. -/
def verify_domain (agent : DiscoveredAgent) : Except String DiscoveredAgent :=
  if !(cardTruthy agent.agent_card) then .ok agent
  else
    match agent.agent_card with
    | some (.obj fields) =>
      match ((Json.obj fields).getField "provider").getD (Json.obj []) with
      | .obj pfields =>
        match (Json.obj pfields).getField "organization" with
        | some (.str organization) =>
          if organization != "" && urlHostname agent.agent_card_url != "" then
            if pyContains (pyLower (urlHostname agent.agent_card_url))
                  (pyRemoveSpaces (pyLower organization))
                || pyEndsWith (pyLower (urlHostname agent.agent_card_url))
                  (pyRemoveSpaces (pyLower organization)) then
              if agent.verification_method ≠ some "tls" then
                .ok { agent with verification_method := some "domain", verified := true }
              else .ok agent
            else .ok agent
          else .ok agent
        | none => .ok agent
        | some v => if jsonTruthy v then .error "AttributeError: lower" else .ok agent
      | _ => .error "AttributeError: get"
    | _ => .error "AttributeError: get"

/-- Python `LADClient._verify_signed_agent_card` (`lad_client.py`, lines
423-464): record an error when verification support or the public key is
missing; otherwise verify the token.  On success set the embedded card,
`verified := true` and `method := "jws"`; on failure record the error and
still decode the payload without signature validation so the card can be
displayed.  An exception out of `verify_agent_card` (unreadable key file)
propagates. -/
def verify_signed_agent_card (cfg : LADClientCfg) (pubFs : PubKeyStore) (now : Int)
    (agent : DiscoveredAgent) (token : TokenInput) : Except String DiscoveredAgent :=
  if !cfg.signing_available then
    .ok { agent with verification_error := some "Signature verification not available" }
  else
    match cfg.signing_public_key with
    | none =>
      .ok { agent with verification_error := some "No public key for signature verification" }
    | some keyPath =>
      match verify_agent_card token none (some keyPath) none pubFs now with
      | .error e => .error e
      | .ok result =>
        if result.valid then
          .ok { agent with
            agent_card := result.agent_card
            verified := true
            verification_method := some "jws" }
        else
          let a1 := { agent with
            verification_error :=
              some ("Signature verification failed: " ++ result.error.getD "None") }
          .ok
            (match token with
            | .wellFormed t => { a1 with agent_card := t.payload.agent_card }
            | .malformed _ => a1)

/-- Outcome of the GET performed by `fetch_agent_card` for one agent.  An
`ok` response carries its `content-type` header, its text body viewed as a
candidate JWS token, and its body parsed as JSON (`none` when
`response.json()` would raise). -/
inductive HttpResponse where
  | statusError (code : Nat)
  | requestError (msg : String)
  | ok (contentType : String) (textBody : TokenInput) (jsonBody : Option Json)

/-- Python `LADClient.fetch_agent_card` (`lad_client.py`, lines 357-421),
with `prefer_signed` left implicit because the request headers it controls
only influence the server's choice of `HttpResponse`.  Returns the agent
after its in-place mutations together with the call's outcome: the returned
card, or the exception it raises. -/
def fetch_agent_card (cfg : LADClientCfg) (pubFs : PubKeyStore) (now : Int)
    (resp : HttpResponse) (verifyDomainFlag : Bool) (agent : DiscoveredAgent) :
    DiscoveredAgent × Except String (Option Json) :=
  match resp with
  | .statusError code =>
    ({ agent with verification_error := some ("HTTP error: " ++ toString code) },
     .error ("HTTPStatusError: " ++ toString code))
  | .requestError m =>
    ({ agent with verification_error := some ("Request error: " ++ m) },
     .error ("RequestError: " ++ m))
  | .ok contentType textBody jsonBody =>
    let step1 : Except String DiscoveredAgent :=
      if pyContains contentType "application/jose" then
        verify_signed_agent_card cfg pubFs now agent textBody
      else
        match jsonBody with
        | none => .error "JSONDecodeError"
        | some j =>
          let a1 := { agent with agent_card := some j }
          if pyStartsWith a1.agent_card_url "https://" && cfg.verify_tls then
            .ok { a1 with verified := true, verification_method := some "tls" }
          else .ok a1
    match step1 with
    | .error e => (agent, .error e)
    | .ok a1 =>
      if verifyDomainFlag && cardTruthy a1.agent_card then
        match verify_domain a1 with
        | .ok a2 => (a2, .ok a2.agent_card)
        | .error e => (a1, .error e)
      else (a1, .ok a1.agent_card)

/-- Step 1 of `LADClient.discover` (`lad_client.py`, lines 528-539): when
`try_mdns`, extend the (empty) result with the mDNS agents and pin
`discovery_method := "mdns"` if there are any; an mDNS failure is appended
to `errors`. -/
def mdnsStep (try_mdns : Bool)
    (mdnsOutcome : Except String (List DiscoveredAgent)) : DiscoveryResult :=
  let r0 : DiscoveryResult := {}
  if try_mdns then
    match mdnsOutcome with
    | .ok mdnsAgents =>
      if !mdnsAgents.isEmpty then
        { r0 with agents := r0.agents ++ mdnsAgents, discovery_method := "mdns" }
      else r0
    | .error e => { r0 with errors := r0.errors ++ ["mDNS discovery failed: " ++ e] }
  else r0

/-- Step 2 of `LADClient.discover` (`lad_client.py`, lines 542-552): only
when no agents were found yet and a fallback URL is supplied, try the
well-known endpoint and pin `discovery_method := "wellknown"` if it yielded
agents; a well-known failure is appended to `errors`. -/
def wkStep (cfg : LADClientCfg) (r1 : DiscoveryResult) (fallback_url : Option String)
    (wkResp : WkResponse) : DiscoveryResult :=
  if r1.agents.isEmpty then
    match fallback_url with
    | some url =>
      match discover_wellknown cfg.verify_tls url wkResp with
      | .ok wkAgents =>
        if !wkAgents.isEmpty then
          { r1 with agents := r1.agents ++ wkAgents, discovery_method := "wellknown" }
        else r1
      | .error e => { r1 with errors := r1.errors ++ ["Well-known discovery failed: " ++ e] }
    | none => r1
  else r1

/-- Steps 1 and 2 of `LADClient.discover` combined: the agent sources in
priority order. -/
def discoverSources (cfg : LADClientCfg) (try_mdns : Bool)
    (mdnsOutcome : Except String (List DiscoveredAgent))
    (fallback_url : Option String) (wkResp : WkResponse) : DiscoveryResult :=
  wkStep cfg (mdnsStep try_mdns mdnsOutcome) fallback_url wkResp

/-- Step 3 of `LADClient.discover` (`lad_client.py`, lines 555-563): fetch
the AgentCard of every discovered agent in order; a failure for one agent is
turned into a diagnostic string and the loop continues.  `cardResp i` is the
HTTP outcome for the i-th agent of the list. -/
def fetchLoop (cfg : LADClientCfg) (pubFs : PubKeyStore) (now : Int)
    (cardResp : Nat → HttpResponse) (i : Nat) :
    List DiscoveredAgent → List DiscoveredAgent × List String
  | [] => ([], [])
  | a :: rest =>
    let r := fetch_agent_card cfg pubFs now (cardResp i) true a
    let tail := fetchLoop cfg pubFs now cardResp (i + 1) rest
    (r.1 :: tail.1,
     (match r.2 with
      | .error e => ["Failed to fetch AgentCard for " ++ r.1.name ++ ": " ++ e]
      | .ok _ => []) ++ tail.2)

/-- Python `LADClient.discover` (`lad_client.py`, lines 498-580): layered
discovery, optional card fetching with per-agent failure isolation, and the
optional `require_verified` filter. -/
def discover (cfg : LADClientCfg) (pubFs : PubKeyStore) (now : Int) (try_mdns : Bool)
    (mdnsOutcome : Except String (List DiscoveredAgent)) (fallback_url : Option String)
    (wkResp : WkResponse) (cardResp : Nat → HttpResponse)
    (fetch_cards require_verified : Bool) : DiscoveryResult :=
  let r2 := discoverSources cfg try_mdns mdnsOutcome fallback_url wkResp
  let r3 :=
    if fetch_cards && !r2.agents.isEmpty then
      let fetched := fetchLoop cfg pubFs now cardResp 0 r2.agents
      { r2 with agents := fetched.1, errors := r2.errors ++ fetched.2 }
    else r2
  if require_verified then { r3 with agents := r3.agents.filter (fun a => a.verified) }
  else r3

/-- Python `LADClient.create_consent_request` (`lad_client.py`, lines
676-693), also the request built inside `discover_with_consent` (lines
645-650). -/
def createConsentRequest (agent : DiscoveredAgent) : ConsentRequest :=
  { agent := agent
    verified := agent.verified
    verification_method := agent.verification_method
    capabilities := agent.capabilities_preview }

/-- The consent loop of `discover_with_consent` (`lad_client.py`, lines
643-665): keep, in order, exactly the agents whose consent decision is
`approved`. -/
def consentLoop (callback : ConsentRequest → ConsentResponse) :
    List DiscoveredAgent → List DiscoveredAgent
  | [] => []
  | a :: rest =>
    let response := callback (createConsentRequest a)
    if response.decision = ConsentDecision.approved then a :: consentLoop callback rest
    else consentLoop callback rest

/-- Python `LADClient.discover_with_consent` (`lad_client.py`, lines
582-674): standard discovery followed by the consent gate, with the default
callback when none is supplied. -/
def discover_with_consent (cfg : LADClientCfg) (pubFs : PubKeyStore) (now : Int)
    (consent_callback : Option (ConsentRequest → ConsentResponse)) (try_mdns : Bool)
    (mdnsOutcome : Except String (List DiscoveredAgent)) (fallback_url : Option String)
    (wkResp : WkResponse) (cardResp : Nat → HttpResponse)
    (fetch_cards require_verified : Bool) : DiscoveryResult :=
  let callback := consent_callback.getD default_consent_callback
  let result :=
    discover cfg pubFs now try_mdns mdnsOutcome fallback_url wkResp cardResp
      fetch_cards require_verified
  if result.agents.isEmpty then result
  else { result with agents := consentLoop callback result.agents }

/-! ## Server card endpoint (`server/lad_server.py`) -/

/-- Python `LADServer.get_signed_agent_card` (`lad_server.py`, lines
427-447): `none` when signing is not configured or enabled, when the signing
module is unavailable, or when `sign_agent_card` raises. -/
def get_signed_agent_card (signing_config : Option SigningConfig)
    (signing_available : Bool) (card : Json) (privFs : PrivKeyStore) (now : Int) :
    Option JwsToken :=
  match signing_config with
  | none => none
  | some cfg =>
    if !cfg.enabled then none
    else if !signing_available then none
    else
      match sign_agent_card card cfg privFs now with
      | .ok tok => some tok
      | .error _ => none

/-- The two response shapes of the card endpoint: a signed compact token
served with media type `application/jose`, or the plain JSON card. -/
inductive CardEndpointResponse where
  | jose (token : JwsToken)
  | plainJson (card : Json)
deriving DecidableEq

/-- Python `agent_card` endpoint handler (`lad_server.py`, lines 574-591):
content negotiation over the request's `Accept` header, falling back to the
plain JSON card whenever a signed token is not wanted or not produced. -/
def agent_card_endpoint (acceptHeader : Option String)
    (signing_config : Option SigningConfig) (signing_available : Bool)
    (card : Json) (privFs : PrivKeyStore) (now : Int) : CardEndpointResponse :=
  let accept := acceptHeader.getD "application/json"
  let wants_signed := pyContains accept "application/jose" || pyContains accept "text/plain"
  if wants_signed
      && (match signing_config with | some c => c.enabled | none => false) then
    match get_signed_agent_card signing_config signing_available card privFs now with
    | some tok => .jose tok
    | none => .plainJson card
  else .plainJson card

/-! ## Shared lemmas -/

/-- Case analysis of a normal return of `_verify_domain`: either the agent is
returned unchanged, or (only when its current method is not `"tls"`) it is
upgraded to `verified := true, method := "domain"`. -/
theorem verify_domain_cases (a a' : DiscoveredAgent)
    (h : verify_domain a = Except.ok a') :
    a' = a ∨ (¬ a.verification_method = some "tls" ∧
      a' = { a with verified := true, verification_method := some "domain" }) := by
  unfold verify_domain at h
  repeat' split at h
  all_goals
    first
    | (left; exact (Except.ok.inj h).symm)
    | (right; exact ⟨by assumption, (Except.ok.inj h).symm⟩)
    | simp at h

/-! ## Concrete scenario instances used by counterexamples and witnesses -/

/-- An agent already verified via `jws` whose card organization
`grandhotel.com` matches its card URL hostname `ai.grandhotel.com`. -/
def jwsVerifiedMatchingAgent : DiscoveredAgent :=
  { name := "Concierge"
    description := ""
    role := "concierge"
    agent_card_url := "https://ai.grandhotel.com/.well-known/agent.json"
    agent_card := some (Json.obj [("provider",
      Json.obj [("organization", Json.str "grandhotel.com")])])
    verified := true
    verification_method := some "jws" }

/-- The spec's domain-verification example: an unverified agent whose card
organization `grandhotel.com` matches its card URL hostname
`ai.grandhotel.com`. -/
def unverifiedMatchingAgent : DiscoveredAgent :=
  { name := "Concierge"
    description := ""
    role := "concierge"
    agent_card_url := "https://ai.grandhotel.com/.well-known/agent.json"
    agent_card := some (Json.obj [("provider",
      Json.obj [("organization", Json.str "grandhotel.com")])])
    verified := false }

/-! ## C2 -/

/-- C2 counterexample: domain verification does not leave a `jws`-verified
agent unchanged.  On the concrete agent above, whose organization matches the
hostname, `_verify_domain` (which only guards against the method `"tls"`)
overwrites `verification_method` from `"jws"` to `"domain"`. -/
theorem verify_domain_rewrites_jws_method :
    jwsVerifiedMatchingAgent.verified = true ∧
    jwsVerifiedMatchingAgent.verification_method = some "jws" ∧
    (verify_domain jwsVerifiedMatchingAgent).map (fun x => x.verification_method)
      = Except.ok (some "domain") := by decide

/-- C2 (amended): domain verification never downgrades and, apart from the
upgrade to `verified := true, method := "domain"`, changes nothing.  An agent
whose method is `"tls"` is returned unchanged whether the comparison matches
or not; a verified agent stays verified; the only other possible outcome of a
normal return is the domain upgrade (which, as the counterexample shows, also
hits `jws`-verified agents on a match). -/
theorem verify_domain_upgrade_only (a a' : DiscoveredAgent)
    (h : verify_domain a = Except.ok a') :
    (a.verification_method = some "tls" → a' = a) ∧
    (a.verified = true → a'.verified = true) ∧
    (a' = a ∨ a' = { a with verified := true, verification_method := some "domain" }) := by
  rcases verify_domain_cases a a' h with heq | ⟨hmeth, heq⟩
  · exact ⟨fun _ => heq, fun hv => heq ▸ hv, Or.inl heq⟩
  · refine ⟨fun htls => absurd htls hmeth, fun _ => by simp [heq], Or.inr heq⟩

/-- C2 witness: the amended theorem applied to the spec's concrete example
(an unverified agent with organization `grandhotel.com` and hostname
`ai.grandhotel.com`), whose hypothesis is discharged by computation. -/
theorem verify_domain_upgrade_only_witness :
    unverifiedMatchingAgent.verified = false ∧
    ({ unverifiedMatchingAgent with
        verified := true, verification_method := some "domain" } = unverifiedMatchingAgent ∨
      { unverifiedMatchingAgent with
        verified := true, verification_method := some "domain" }
        = { unverifiedMatchingAgent with
            verified := true, verification_method := some "domain" }) :=
  ⟨by decide,
    (verify_domain_upgrade_only unverifiedMatchingAgent
      { unverifiedMatchingAgent with
        verified := true, verification_method := some "domain" } (by decide)).2.2⟩

/-! ## C1: the verified-implies-method invariant -/

/-- The data-model invariant of `DiscoveredAgent`:
`verified == true` implies `verification_method != None`. -/
def VerifiedInvariant (a : DiscoveredAgent) : Prop :=
  a.verified = true → a.verification_method ≠ none

instance (a : DiscoveredAgent) : Decidable (VerifiedInvariant a) := by
  unfold VerifiedInvariant; infer_instance

theorem parseWkAgent_invariant (u v : Bool) (d : Json) (a : DiscoveredAgent)
    (h : parseWkAgent u v d = Except.ok a) : VerifiedInvariant a := by
  unfold parseWkAgent at h
  repeat' split at h
  all_goals first
    | (obtain rfl := Except.ok.inj h
       intro hv
       first
         | exact Option.some_ne_none _
         | exact absurd hv (by assumption))
    | simp at h

theorem parseWkAgents_invariant (u v : Bool) :
    ∀ (ds : List Json) (l : List DiscoveredAgent),
      parseWkAgents u v ds = Except.ok l → ∀ a ∈ l, VerifiedInvariant a
  | [], l, h => by
    simp only [parseWkAgents] at h
    obtain rfl := Except.ok.inj h
    simp
  | d :: rest, l, h => by
    simp only [parseWkAgents] at h
    split at h
    · cases h
    next a ha =>
      split at h
      · cases h
      next tail htail =>
        obtain rfl := Except.ok.inj h
        intro x hx
        rcases List.mem_cons.mp hx with rfl | hx
        · exact parseWkAgent_invariant u v d x ha
        · exact parseWkAgents_invariant u v rest tail htail x hx

theorem discover_wellknown_invariant (vt : Bool) (url : String) (resp : WkResponse)
    (l : List DiscoveredAgent) (h : discover_wellknown vt url resp = Except.ok l) :
    ∀ a ∈ l, VerifiedInvariant a := by
  unfold discover_wellknown at h
  repeat' split at h
  all_goals first
    | (exact parseWkAgents_invariant _ _ _ _ h)
    | (obtain rfl := Except.ok.inj h; simp)
    | cases h

theorem verify_domain_invariant (a a' : DiscoveredAgent)
    (hinv : VerifiedInvariant a) (h : verify_domain a = Except.ok a') :
    VerifiedInvariant a' := by
  rcases verify_domain_cases a a' h with rfl | ⟨-, rfl⟩
  · exact hinv
  · exact fun _ => Option.some_ne_none _

theorem verify_signed_agent_card_invariant (cfg : LADClientCfg) (pubFs : PubKeyStore)
    (now : Int) (agent : DiscoveredAgent) (token : TokenInput) (a' : DiscoveredAgent)
    (hinv : VerifiedInvariant agent)
    (h : verify_signed_agent_card cfg pubFs now agent token = Except.ok a') :
    VerifiedInvariant a' := by
  unfold verify_signed_agent_card at h
  repeat' split at h
  all_goals first
    | (obtain rfl := Except.ok.inj h
       first
         | exact fun _ => Option.some_ne_none _
         | exact fun hv => hinv hv)
    | cases h

theorem fetch_agent_card_invariant (cfg : LADClientCfg) (pubFs : PubKeyStore)
    (now : Int) (resp : HttpResponse) (vd : Bool) (agent : DiscoveredAgent)
    (hinv : VerifiedInvariant agent) :
    VerifiedInvariant (fetch_agent_card cfg pubFs now resp vd agent).1 := by
  unfold fetch_agent_card
  cases resp with
  | statusError code => exact fun hv => hinv hv
  | requestError m => exact fun hv => hinv hv
  | ok ct tb jb =>
    dsimp only
    split
    next e heq => exact fun hv => hinv hv
    next a1 heq =>
      have hinv1 : VerifiedInvariant a1 := by
        split at heq
        · exact verify_signed_agent_card_invariant cfg pubFs now agent tb a1 hinv heq
        · split at heq
          · cases heq
          next j =>
            split at heq
            · obtain rfl := Except.ok.inj heq
              exact fun _ => Option.some_ne_none _
            · obtain rfl := Except.ok.inj heq
              exact fun hv => hinv hv
      split
      · split
        next a2 hdom => exact verify_domain_invariant a1 a2 hinv1 hdom
        next e hdom => exact hinv1
      · exact hinv1

theorem fetchLoop_invariant (cfg : LADClientCfg) (pubFs : PubKeyStore) (now : Int)
    (cr : Nat → HttpResponse) :
    ∀ (i : Nat) (l : List DiscoveredAgent), (∀ a ∈ l, VerifiedInvariant a) →
      ∀ a ∈ (fetchLoop cfg pubFs now cr i l).1, VerifiedInvariant a
  | i, [], h => by simp [fetchLoop]
  | i, a :: rest, h => by
    simp only [fetchLoop]
    intro x hx
    rcases List.mem_cons.mp hx with rfl | hx
    · exact fetch_agent_card_invariant cfg pubFs now (cr i) true a (h a (by simp))
    · exact fetchLoop_invariant cfg pubFs now cr (i + 1) rest
        (fun b hb => h b (List.mem_cons_of_mem a hb)) x hx

theorem mdnsStep_mem (tm : Bool) (mo : Except String (List DiscoveredAgent))
    (a : DiscoveredAgent) (ha : a ∈ (mdnsStep tm mo).agents) :
    ∃ ms, mo = Except.ok ms ∧ a ∈ ms := by
  unfold mdnsStep at ha
  split at ha
  · split at ha
    next ms =>
      split at ha
      · exact ⟨ms, rfl, by simpa using ha⟩
      · exact absurd ha (List.not_mem_nil a)
    next e => exact absurd ha (List.not_mem_nil a)
  · exact absurd ha (List.not_mem_nil a)

theorem wkStep_mem (cfg : LADClientCfg) (r1 : DiscoveryResult) (fb : Option String)
    (wk : WkResponse) (a : DiscoveredAgent) (ha : a ∈ (wkStep cfg r1 fb wk).agents) :
    a ∈ r1.agents ∨ ∃ url l, fb = some url ∧
      discover_wellknown cfg.verify_tls url wk = Except.ok l ∧ a ∈ l := by
  unfold wkStep at ha
  split at ha
  · split at ha
    next url =>
      split at ha
      next l hl =>
        split at ha
        · rcases List.mem_append.mp ha with h1 | h2
          · exact Or.inl h1
          · exact Or.inr ⟨url, l, rfl, hl, h2⟩
        · exact Or.inl ha
      next e he => exact Or.inl ha
    next => exact Or.inl ha
  · exact Or.inl ha

theorem discoverSources_invariant (cfg : LADClientCfg) (tm : Bool)
    (mo : Except String (List DiscoveredAgent)) (fb : Option String) (wk : WkResponse)
    (hm : ∀ l, mo = Except.ok l → ∀ a ∈ l, VerifiedInvariant a) :
    ∀ a ∈ (discoverSources cfg tm mo fb wk).agents, VerifiedInvariant a := by
  intro a ha
  rcases wkStep_mem cfg (mdnsStep tm mo) fb wk a ha with h1 | ⟨url, l, hfb, hl, hal⟩
  · obtain ⟨ms, hmo, ham⟩ := mdnsStep_mem tm mo a h1
    exact hm ms hmo a ham
  · exact discover_wellknown_invariant _ _ _ _ hl a hal

theorem consentLoop_eq_filter (cb : ConsentRequest → ConsentResponse) :
    ∀ l : List DiscoveredAgent,
      consentLoop cb l
        = l.filter (fun a => decide ((cb (createConsentRequest a)).decision = ConsentDecision.approved))
  | [] => rfl
  | a :: rest => by
    simp only [consentLoop, List.filter_cons]
    split
    next hdec => simp [hdec, consentLoop_eq_filter cb rest]
    next hdec => simp [hdec, consentLoop_eq_filter cb rest]

theorem discover_mem (cfg : LADClientCfg) (pubFs : PubKeyStore) (now : Int)
    (tm : Bool) (mo : Except String (List DiscoveredAgent)) (fb : Option String)
    (wk : WkResponse) (cr : Nat → HttpResponse) (fc rv : Bool) (a : DiscoveredAgent)
    (ha : a ∈ (discover cfg pubFs now tm mo fb wk cr fc rv).agents) :
    a ∈ (discoverSources cfg tm mo fb wk).agents ∨
      a ∈ (fetchLoop cfg pubFs now cr 0 (discoverSources cfg tm mo fb wk).agents).1 := by
  unfold discover at ha
  dsimp only at ha
  split at ha
  · have ha' := List.mem_of_mem_filter ha
    split at ha'
    · exact Or.inr ha'
    · exact Or.inl ha'
  · split at ha
    · exact Or.inr ha
    · exact Or.inl ha

theorem discover_invariant (cfg : LADClientCfg) (pubFs : PubKeyStore) (now : Int)
    (tm : Bool) (mo : Except String (List DiscoveredAgent)) (fb : Option String)
    (wk : WkResponse) (cr : Nat → HttpResponse) (fc rv : Bool)
    (hm : ∀ l, mo = Except.ok l → ∀ a ∈ l, VerifiedInvariant a) :
    ∀ a ∈ (discover cfg pubFs now tm mo fb wk cr fc rv).agents, VerifiedInvariant a := by
  intro a ha
  have hsrc := discoverSources_invariant cfg tm mo fb wk hm
  rcases discover_mem cfg pubFs now tm mo fb wk cr fc rv a ha with h | h
  · exact hsrc a h
  · exact fetchLoop_invariant cfg pubFs now cr 0 _ hsrc a h

/-- C1: every `DiscoveredAgent` returned by `discover_wellknown`,
`fetch_agent_card`, `discover` or `discover_with_consent` satisfies
`verified == true → verification_method != None`.  The operations that take
already-discovered agents as input (`fetch_agent_card`, and `discover` /
`discover_with_consent` via their mDNS input) preserve the invariant, and
the agents the sources create satisfy it outright (mDNS agents are created
unverified, see `mdnsDiscoveredAgent`). -/
theorem verified_implies_method_invariant :
    (∀ (vt : Bool) (url : String) (resp : WkResponse) (l : List DiscoveredAgent),
      discover_wellknown vt url resp = Except.ok l → ∀ a ∈ l, VerifiedInvariant a) ∧
    (∀ (cfg : LADClientCfg) (pubFs : PubKeyStore) (now : Int) (resp : HttpResponse)
      (vd : Bool) (agent : DiscoveredAgent), VerifiedInvariant agent →
      VerifiedInvariant (fetch_agent_card cfg pubFs now resp vd agent).1) ∧
    (∀ (cfg : LADClientCfg) (pubFs : PubKeyStore) (now : Int) (tm : Bool)
      (mo : Except String (List DiscoveredAgent)) (fb : Option String)
      (wk : WkResponse) (cr : Nat → HttpResponse) (fc rv : Bool),
      (∀ l, mo = Except.ok l → ∀ a ∈ l, VerifiedInvariant a) →
      ∀ a ∈ (discover cfg pubFs now tm mo fb wk cr fc rv).agents, VerifiedInvariant a) ∧
    (∀ (cfg : LADClientCfg) (pubFs : PubKeyStore) (now : Int)
      (cb : Option (ConsentRequest → ConsentResponse)) (tm : Bool)
      (mo : Except String (List DiscoveredAgent)) (fb : Option String)
      (wk : WkResponse) (cr : Nat → HttpResponse) (fc rv : Bool),
      (∀ l, mo = Except.ok l → ∀ a ∈ l, VerifiedInvariant a) →
      ∀ a ∈ (discover_with_consent cfg pubFs now cb tm mo fb wk cr fc rv).agents,
        VerifiedInvariant a) := by
  refine ⟨discover_wellknown_invariant, fetch_agent_card_invariant,
    discover_invariant, ?_⟩
  intro cfg pubFs now cb tm mo fb wk cr fc rv hm a ha
  unfold discover_with_consent at ha
  dsimp only at ha
  have hdisc := discover_invariant cfg pubFs now tm mo fb wk cr fc rv hm
  split at ha
  · exact hdisc a ha
  · simp only [consentLoop_eq_filter] at ha
    exact hdisc a (List.mem_of_mem_filter ha)

/-- C1 witness: the invariant theorem instantiated at concrete inputs — a
well-known discovery over https yielding one `tls`-verified agent, a card
fetch for an unverified mDNS agent, and a full `discover` /
`discover_with_consent` run over a one-agent mDNS result. -/
theorem verified_implies_method_invariant_witness :
    (∀ a ∈ [{ name := "A", description := "", role := "unknown",
              agent_card_url := "https://h/.well-known/agent.json",
              source := "wellknown", verified := true,
              verification_method := some "tls" : DiscoveredAgent }],
      VerifiedInvariant a) ∧
    VerifiedInvariant
      (fetch_agent_card {} (fun _ => none) 0
        (HttpResponse.requestError "boom") true
        (mdnsDiscoveredAgent "A" "org" "r" "http://1.2.3.4:8001/.well-known/agent.json")).1 ∧
    (∀ a ∈ (discover_with_consent {} (fun _ => none) 0 none true
        (Except.ok [mdnsDiscoveredAgent "A" "org" "r" "http://1.2.3.4:8001/.well-known/agent.json"])
        none (WkResponse.requestError "down") (fun _ => HttpResponse.requestError "boom")
        true false).agents, VerifiedInvariant a) := by
  refine ⟨?_, ?_, ?_⟩
  · exact verified_implies_method_invariant.1 true "https://h"
      (WkResponse.ok (Json.obj [("agents", Json.arr [Json.obj
        [("name", Json.str "A"),
         ("agent_card_url", Json.str "https://h/.well-known/agent.json")]])]))
      _ (by decide)
  · exact verified_implies_method_invariant.2.1 {} (fun _ => none) 0
      (HttpResponse.requestError "boom") true
      (mdnsDiscoveredAgent "A" "org" "r" "http://1.2.3.4:8001/.well-known/agent.json")
      (by decide)
  · exact verified_implies_method_invariant.2.2.2 {} (fun _ => none) 0 none true
      (Except.ok [mdnsDiscoveredAgent "A" "org" "r" "http://1.2.3.4:8001/.well-known/agent.json"])
      none (WkResponse.requestError "down") (fun _ => HttpResponse.requestError "boom")
      true false (by intro l hl; obtain rfl := Except.ok.inj hl; decide)

/-! ## C6: the consent gate -/

theorem discover_with_consent_agents (cfg : LADClientCfg) (pubFs : PubKeyStore)
    (now : Int) (cb : Option (ConsentRequest → ConsentResponse)) (tm : Bool)
    (mo : Except String (List DiscoveredAgent)) (fb : Option String) (wk : WkResponse)
    (cr : Nat → HttpResponse) (fc rv : Bool) :
    (discover_with_consent cfg pubFs now cb tm mo fb wk cr fc rv).agents
      = ((discover cfg pubFs now tm mo fb wk cr fc rv).agents).filter
          (fun a => decide (((cb.getD default_consent_callback)
              (createConsentRequest a)).decision = ConsentDecision.approved)) := by
  unfold discover_with_consent
  dsimp only
  split
  next hempty =>
    rw [List.isEmpty_iff] at hempty
    simp [hempty]
  next => exact consentLoop_eq_filter _ _

theorem default_callback_approves_verified (l : List DiscoveredAgent) :
    l.filter (fun a => decide ((default_consent_callback
        (createConsentRequest a)).decision = ConsentDecision.approved))
      = l.filter (fun a => a.verified) := by
  apply List.filter_congr
  intro a ha
  unfold default_consent_callback createConsentRequest
  cases hv : a.verified <;> simp [hv]

/-- C6: the agent list returned by `discover_with_consent` is always an
order-preserving sublist of the underlying `discover` result: exactly the
agents whose consent decision is `approved` are retained (denied and
deferred agents are dropped), and with no callback supplied it equals
exactly the sub-list of agents with `verified == true`. -/
theorem consent_gate_subset :
    (∀ (cfg : LADClientCfg) (pubFs : PubKeyStore) (now : Int)
      (cb : Option (ConsentRequest → ConsentResponse)) (tm : Bool)
      (mo : Except String (List DiscoveredAgent)) (fb : Option String)
      (wk : WkResponse) (cr : Nat → HttpResponse) (fc rv : Bool),
      ((discover_with_consent cfg pubFs now cb tm mo fb wk cr fc rv).agents).Sublist
        ((discover cfg pubFs now tm mo fb wk cr fc rv).agents)) ∧
    (∀ (cfg : LADClientCfg) (pubFs : PubKeyStore) (now : Int)
      (cb : ConsentRequest → ConsentResponse) (tm : Bool)
      (mo : Except String (List DiscoveredAgent)) (fb : Option String)
      (wk : WkResponse) (cr : Nat → HttpResponse) (fc rv : Bool),
      (discover_with_consent cfg pubFs now (some cb) tm mo fb wk cr fc rv).agents
        = ((discover cfg pubFs now tm mo fb wk cr fc rv).agents).filter
            (fun a => decide ((cb (createConsentRequest a)).decision
              = ConsentDecision.approved))) ∧
    (∀ (cfg : LADClientCfg) (pubFs : PubKeyStore) (now : Int) (tm : Bool)
      (mo : Except String (List DiscoveredAgent)) (fb : Option String)
      (wk : WkResponse) (cr : Nat → HttpResponse) (fc rv : Bool),
      (discover_with_consent cfg pubFs now none tm mo fb wk cr fc rv).agents
        = ((discover cfg pubFs now tm mo fb wk cr fc rv).agents).filter
            (fun a => a.verified)) := by
  refine ⟨?_, ?_, ?_⟩
  · intro cfg pubFs now cb tm mo fb wk cr fc rv
    rw [discover_with_consent_agents]
    exact List.filter_sublist _
  · intro cfg pubFs now cb tm mo fb wk cr fc rv
    rw [discover_with_consent_agents]
    exact rfl
  · intro cfg pubFs now tm mo fb wk cr fc rv
    rw [discover_with_consent_agents, Option.getD_none,
      default_callback_approves_verified]

/-! ## C5: source ordering and method pinning -/

/-- The claim's side condition for the well-known fallback to be consulted:
mDNS was disabled, errored, or yielded zero agents. -/
def NoMdnsYield (tm : Bool) (mo : Except String (List DiscoveredAgent)) : Prop :=
  tm = false ∨ (∃ e, mo = Except.error e) ∨ mo = Except.ok []

/-- The well-known source yields no agents: no fallback URL supplied, or the
well-known call errored or returned an empty list. -/
def NoWkYield (vt : Bool) (fb : Option String) (wk : WkResponse) : Prop :=
  fb = none ∨ ∃ url, fb = some url ∧
    ((∃ e, discover_wellknown vt url wk = Except.error e) ∨
      discover_wellknown vt url wk = Except.ok [])

theorem mdnsStep_ok_nonempty (mo : Except String (List DiscoveredAgent))
    (ms : List DiscoveredAgent) (hmo : mo = Except.ok ms) (hms : ms ≠ []) :
    mdnsStep true mo = { agents := ms, discovery_method := "mdns" } := by
  subst hmo
  obtain ⟨x, xs, rfl⟩ := List.exists_cons_of_ne_nil hms
  rfl

theorem wkStep_of_nonempty (cfg : LADClientCfg) (r1 : DiscoveryResult)
    (fb : Option String) (wk : WkResponse) (h : r1.agents ≠ []) :
    wkStep cfg r1 fb wk = r1 := by
  unfold wkStep
  rw [if_neg]
  simp [h]

theorem mdnsStep_noYield (tm : Bool) (mo : Except String (List DiscoveredAgent))
    (h : NoMdnsYield tm mo) :
    (mdnsStep tm mo).agents = [] ∧ (mdnsStep tm mo).discovery_method = "none" := by
  rcases h with rfl | ⟨e, rfl⟩ | rfl
  · exact ⟨rfl, rfl⟩
  · cases tm <;> exact ⟨rfl, rfl⟩
  · cases tm <;> exact ⟨rfl, rfl⟩

theorem wkStep_noYield (cfg : LADClientCfg) (r1 : DiscoveryResult) (fb : Option String)
    (wk : WkResponse) (h1 : r1.agents = []) (h : NoWkYield cfg.verify_tls fb wk) :
    (wkStep cfg r1 fb wk).agents = [] ∧
      (wkStep cfg r1 fb wk).discovery_method = r1.discovery_method := by
  unfold wkStep
  rcases h with rfl | ⟨url, rfl, ⟨e, he⟩ | hok⟩
  · simp [h1]
  · simp [h1, he]
  · simp [h1, hok]

theorem wkStep_yield (cfg : LADClientCfg) (r1 : DiscoveryResult) (fb : Option String)
    (wk : WkResponse) (url : String) (l : List DiscoveredAgent) (h1 : r1.agents = [])
    (hfb : fb = some url) (hok : discover_wellknown cfg.verify_tls url wk = Except.ok l)
    (hl : l ≠ []) :
    (wkStep cfg r1 fb wk).agents = l ∧
      (wkStep cfg r1 fb wk).discovery_method = "wellknown" := by
  subst hfb
  obtain ⟨x, xs, rfl⟩ := List.exists_cons_of_ne_nil hl
  unfold wkStep
  simp [h1, hok]

theorem discover_method_eq (cfg : LADClientCfg) (pubFs : PubKeyStore) (now : Int)
    (tm : Bool) (mo : Except String (List DiscoveredAgent)) (fb : Option String)
    (wk : WkResponse) (cr : Nat → HttpResponse) (fc rv : Bool) :
    (discover cfg pubFs now tm mo fb wk cr fc rv).discovery_method
      = (discoverSources cfg tm mo fb wk).discovery_method := by
  unfold discover
  dsimp only
  split <;> split <;> rfl

theorem discover_agents_empty (cfg : LADClientCfg) (pubFs : PubKeyStore) (now : Int)
    (tm : Bool) (mo : Except String (List DiscoveredAgent)) (fb : Option String)
    (wk : WkResponse) (cr : Nat → HttpResponse) (fc rv : Bool)
    (h : (discoverSources cfg tm mo fb wk).agents = []) :
    (discover cfg pubFs now tm mo fb wk cr fc rv).agents = [] := by
  unfold discover
  dsimp only
  simp only [h]
  split <;> simp [h]

/-- C5: in `discover`, if mDNS is tried and yields agents, the method is
pinned to `"mdns"` and the well-known source is never consulted (the result
does not depend on the well-known response at all); the well-known fetch
runs only when mDNS is disabled, errored or yielded zero agents and a
fallback URL is supplied, pinning `"wellknown"` only when it yielded agents;
and when no source yields agents the method stays `"none"` with an empty
agent list. -/
theorem discover_source_priority :
    (∀ (cfg : LADClientCfg) (pubFs : PubKeyStore) (now : Int)
      (mo : Except String (List DiscoveredAgent)) (ms : List DiscoveredAgent)
      (fb : Option String) (wk wk' : WkResponse) (cr : Nat → HttpResponse) (fc rv : Bool),
      mo = Except.ok ms → ms ≠ [] →
      (discover cfg pubFs now true mo fb wk cr fc rv).discovery_method = "mdns" ∧
      discover cfg pubFs now true mo fb wk cr fc rv
        = discover cfg pubFs now true mo fb wk' cr fc rv) ∧
    (∀ (cfg : LADClientCfg) (pubFs : PubKeyStore) (now : Int) (tm : Bool)
      (mo : Except String (List DiscoveredAgent)) (fb : Option String)
      (wk : WkResponse) (cr : Nat → HttpResponse) (fc rv : Bool)
      (url : String) (l : List DiscoveredAgent),
      NoMdnsYield tm mo → fb = some url →
      discover_wellknown cfg.verify_tls url wk = Except.ok l → l ≠ [] →
      (discover cfg pubFs now tm mo fb wk cr fc rv).discovery_method = "wellknown") ∧
    (∀ (cfg : LADClientCfg) (pubFs : PubKeyStore) (now : Int) (tm : Bool)
      (mo : Except String (List DiscoveredAgent)) (fb : Option String)
      (wk : WkResponse) (cr : Nat → HttpResponse) (fc rv : Bool),
      NoMdnsYield tm mo → NoWkYield cfg.verify_tls fb wk →
      (discover cfg pubFs now tm mo fb wk cr fc rv).discovery_method = "none" ∧
      (discover cfg pubFs now tm mo fb wk cr fc rv).agents = []) := by
  refine ⟨?_, ?_, ?_⟩
  · intro cfg pubFs now mo ms fb wk wk' cr fc rv hmo hms
    have hsrc : ∀ w, discoverSources cfg true mo fb w
        = { agents := ms, discovery_method := "mdns" } := by
      intro w
      unfold discoverSources
      rw [mdnsStep_ok_nonempty mo ms hmo hms]
      exact wkStep_of_nonempty cfg _ fb w hms
    constructor
    · rw [discover_method_eq, hsrc wk]
    · unfold discover
      rw [hsrc wk, hsrc wk']
  · intro cfg pubFs now tm mo fb wk cr fc rv url l hno hfb hok hl
    rw [discover_method_eq]
    unfold discoverSources
    exact (wkStep_yield cfg _ fb wk url l (mdnsStep_noYield tm mo hno).1 hfb hok hl).2
  · intro cfg pubFs now tm mo fb wk cr fc rv hno hwk
    obtain ⟨hag, hme⟩ := mdnsStep_noYield tm mo hno
    obtain ⟨hag2, hme2⟩ := wkStep_noYield cfg (mdnsStep tm mo) fb wk hag hwk
    refine ⟨?_, discover_agents_empty cfg pubFs now tm mo fb wk cr fc rv hag2⟩
    rw [discover_method_eq]
    unfold discoverSources
    rw [hme2, hme]

/-- C5 witness: the three conjuncts at concrete inputs — a one-agent mDNS
result pins `"mdns"` whatever the well-known response; with mDNS disabled
a one-agent well-known response pins `"wellknown"`; with no source yielding
agents the method is `"none"` and the list empty. -/
theorem discover_source_priority_witness :
    (discover {} (fun _ => none) 0 true
        (Except.ok [mdnsDiscoveredAgent "A" "org" "r" "http://1.2.3.4:8001/.well-known/agent.json"])
        (some "http://localhost:8080") (WkResponse.requestError "down")
        (fun _ => HttpResponse.requestError "boom") true false).discovery_method = "mdns" ∧
    (discover {} (fun _ => none) 0 false (Except.ok [])
        (some "http://localhost:8080")
        (WkResponse.ok (Json.obj [("agents", Json.arr [Json.obj
          [("name", Json.str "B"),
           ("agent_card_url", Json.str "http://localhost:8080/.well-known/agent.json")]])]))
        (fun _ => HttpResponse.requestError "boom") true false).discovery_method
      = "wellknown" ∧
    (discover {} (fun _ => none) 0 false (Except.ok []) none
        (WkResponse.requestError "down")
        (fun _ => HttpResponse.requestError "boom") true false).discovery_method = "none" :=
  ⟨(discover_source_priority.1 {} (fun _ => none) 0 _ _ (some "http://localhost:8080")
      (WkResponse.requestError "down") (WkResponse.requestError "down")
      (fun _ => HttpResponse.requestError "boom") true false rfl (by decide)).1,
   discover_source_priority.2.1 {} (fun _ => none) 0 false (Except.ok [])
      (some "http://localhost:8080")
      (WkResponse.ok (Json.obj [("agents", Json.arr [Json.obj
        [("name", Json.str "B"),
         ("agent_card_url", Json.str "http://localhost:8080/.well-known/agent.json")]])]))
      (fun _ => HttpResponse.requestError "boom") true false
      "http://localhost:8080"
      [{ name := "B", description := "", role := "unknown",
         agent_card_url := "http://localhost:8080/.well-known/agent.json",
         capabilities_preview := [], source := "wellknown", agent_card := none,
         verified := false, verification_method := none, verification_error := none }]
      (Or.inl rfl) rfl (by decide) (by decide),
   (discover_source_priority.2.2 {} (fun _ => none) 0 false (Except.ok []) none
      (WkResponse.requestError "down") (fun _ => HttpResponse.requestError "boom") true false
      (Or.inr (Or.inr rfl)) (Or.inl rfl)).1⟩

/-! ## C8: error accumulation and partial-failure isolation -/

theorem fetchLoop_fst_get? (cfg : LADClientCfg) (pubFs : PubKeyStore) (now : Int)
    (cr : Nat → HttpResponse) :
    ∀ (i j : Nat) (l : List DiscoveredAgent),
      ((fetchLoop cfg pubFs now cr i l).1).get? j
        = (l.get? j).map (fun a => (fetch_agent_card cfg pubFs now (cr (i + j)) true a).1)
  | i, j, [] => by simp [fetchLoop]
  | i, 0, a :: rest => by simp [fetchLoop]
  | i, j + 1, a :: rest => by
    simp only [fetchLoop, List.get?]
    rw [fetchLoop_fst_get? cfg pubFs now cr (i + 1) j rest]
    have harith : i + 1 + j = i + (j + 1) := by omega
    rw [harith]

theorem fetchLoop_snd_mem (cfg : LADClientCfg) (pubFs : PubKeyStore) (now : Int)
    (cr : Nat → HttpResponse) :
    ∀ (i j : Nat) (l : List DiscoveredAgent) (a : DiscoveredAgent) (e : String),
      l.get? j = some a →
      (fetch_agent_card cfg pubFs now (cr (i + j)) true a).2 = Except.error e →
      ("Failed to fetch AgentCard for "
          ++ ((fetch_agent_card cfg pubFs now (cr (i + j)) true a).1).name ++ ": " ++ e)
        ∈ (fetchLoop cfg pubFs now cr i l).2
  | i, j, [], a, e, h, _ => by simp at h
  | i, 0, x :: rest, a, e, h, herr => by
    obtain rfl := Option.some.inj h
    simp only [fetchLoop, Nat.add_zero] at herr ⊢
    rw [herr]
    simp
  | i, j + 1, x :: rest, a, e, h, herr => by
    simp only [fetchLoop]
    apply List.mem_append_right
    have harith : i + (j + 1) = i + 1 + j := by omega
    rw [harith] at herr
    have := fetchLoop_snd_mem cfg pubFs now cr (i + 1) j rest a e (by simpa using h) herr
    rw [harith]
    exact this

theorem fetchLoop_fst_length (cfg : LADClientCfg) (pubFs : PubKeyStore) (now : Int)
    (cr : Nat → HttpResponse) :
    ∀ (i : Nat) (l : List DiscoveredAgent),
      ((fetchLoop cfg pubFs now cr i l).1).length = l.length
  | i, [] => rfl
  | i, a :: rest => by
    simp only [fetchLoop, List.length_cons]
    rw [fetchLoop_fst_length cfg pubFs now cr (i + 1) rest]

theorem discover_fetch_decomposition (cfg : LADClientCfg) (pubFs : PubKeyStore)
    (now : Int) (tm : Bool) (mo : Except String (List DiscoveredAgent))
    (fb : Option String) (wk : WkResponse) (cr : Nat → HttpResponse)
    (hne : (discoverSources cfg tm mo fb wk).agents ≠ []) :
    (discover cfg pubFs now tm mo fb wk cr true false).agents
        = (fetchLoop cfg pubFs now cr 0 (discoverSources cfg tm mo fb wk).agents).1 ∧
    (discover cfg pubFs now tm mo fb wk cr true false).errors
        = (discoverSources cfg tm mo fb wk).errors
          ++ (fetchLoop cfg pubFs now cr 0 (discoverSources cfg tm mo fb wk).agents).2 := by
  unfold discover
  dsimp only
  simp [hne]

theorem discover_no_fetch_decomposition (cfg : LADClientCfg) (pubFs : PubKeyStore)
    (now : Int) (tm : Bool) (mo : Except String (List DiscoveredAgent))
    (fb : Option String) (wk : WkResponse) (cr : Nat → HttpResponse)
    (hemp : (discoverSources cfg tm mo fb wk).agents = []) :
    discover cfg pubFs now tm mo fb wk cr true false
      = discoverSources cfg tm mo fb wk := by
  unfold discover
  dsimp only
  simp [hemp]

/-- C8: `discover` is a total function of its inputs — every combination of
mDNS, well-known and per-agent card-fetch outcomes (including the raising
ones, `Except.error`) is mapped to a `DiscoveryResult`, never to an
exception.  With `fetch_cards` on and no `require_verified` filter, the
i-th returned agent is always the result of fetching the i-th discovered
agent's card (so a failure for agent N does not stop agent N+1: the list
keeps its length and every position is processed), and each per-agent
failure contributes its diagnostic string to `errors`. -/
theorem discover_partial_failure_isolation :
    ∀ (cfg : LADClientCfg) (pubFs : PubKeyStore) (now : Int) (tm : Bool)
      (mo : Except String (List DiscoveredAgent)) (fb : Option String)
      (wk : WkResponse) (cr : Nat → HttpResponse),
    ((discover cfg pubFs now tm mo fb wk cr true false).agents).length
        = ((discoverSources cfg tm mo fb wk).agents).length ∧
    (∀ j : Nat, ((discover cfg pubFs now tm mo fb wk cr true false).agents).get? j
        = (((discoverSources cfg tm mo fb wk).agents).get? j).map
            (fun a => (fetch_agent_card cfg pubFs now (cr j) true a).1)) ∧
    (∀ (j : Nat) (a : DiscoveredAgent) (e : String),
      ((discoverSources cfg tm mo fb wk).agents).get? j = some a →
      (fetch_agent_card cfg pubFs now (cr j) true a).2 = Except.error e →
      ("Failed to fetch AgentCard for "
          ++ ((fetch_agent_card cfg pubFs now (cr j) true a).1).name ++ ": " ++ e)
        ∈ (discover cfg pubFs now tm mo fb wk cr true false).errors) := by
  intro cfg pubFs now tm mo fb wk cr
  by_cases hemp : (discoverSources cfg tm mo fb wk).agents = []
  · rw [discover_no_fetch_decomposition cfg pubFs now tm mo fb wk cr hemp]
    refine ⟨rfl, ?_, ?_⟩
    · intro j
      rw [hemp]
      simp
    · intro j a e hj
      rw [hemp] at hj
      simp at hj
  · obtain ⟨hag, herrs⟩ := discover_fetch_decomposition cfg pubFs now tm mo fb wk cr hemp
    refine ⟨?_, ?_, ?_⟩
    · rw [hag, fetchLoop_fst_length]
    · intro j
      rw [hag]
      have := fetchLoop_fst_get? cfg pubFs now cr 0 j (discoverSources cfg tm mo fb wk).agents
      simpa using this
    · intro j a e hj herr
      rw [herrs]
      apply List.mem_append_right
      have := fetchLoop_snd_mem cfg pubFs now cr 0 j
        (discoverSources cfg tm mo fb wk).agents a e hj (by simpa using herr)
      simpa using this

/-- C8 witness: a concrete run in which the single discovered agent's card
fetch raises; the theorem yields its diagnostic in `errors` and the agent's
position still processed. -/
theorem discover_partial_failure_isolation_witness :
    ((discoverSources {} true
        (Except.ok [mdnsDiscoveredAgent "A" "org" "r" "http://1.2.3.4:8001/.well-known/agent.json"])
        none (WkResponse.requestError "down")).agents).get? 0
      = some (mdnsDiscoveredAgent "A" "org" "r" "http://1.2.3.4:8001/.well-known/agent.json") ∧
    ("Failed to fetch AgentCard for "
        ++ ((fetch_agent_card {} (fun _ => none) 0
              (HttpResponse.requestError "boom") true
              (mdnsDiscoveredAgent "A" "org" "r" "http://1.2.3.4:8001/.well-known/agent.json")).1).name
        ++ ": " ++ "RequestError: boom")
      ∈ (discover {} (fun _ => none) 0 true
          (Except.ok [mdnsDiscoveredAgent "A" "org" "r" "http://1.2.3.4:8001/.well-known/agent.json"])
          none (WkResponse.requestError "down")
          (fun _ => HttpResponse.requestError "boom") true false).errors :=
  ⟨by decide,
   (discover_partial_failure_isolation {} (fun _ => none) 0 true
      (Except.ok [mdnsDiscoveredAgent "A" "org" "r" "http://1.2.3.4:8001/.well-known/agent.json"])
      none (WkResponse.requestError "down")
      (fun _ => HttpResponse.requestError "boom")).2.2 0
      (mdnsDiscoveredAgent "A" "org" "r" "http://1.2.3.4:8001/.well-known/agent.json")
      "RequestError: boom" (by decide) (by decide)⟩

/-! ## C7: signed-card verification failure path -/

/-- C7: when a signed card response cannot be positively verified — no
verification support, no configured public key, or a verification result
with `valid = false` — the handling sets `verification_error`, leaves
`verified` and `verification_method` untouched (in particular it never sets
`verified := true` or `method := "jws"`), and on the invalid-result path
populates `agent_card` from the unverified payload of a well-formed token
while leaving it unchanged for a malformed one. -/
theorem signed_card_failure_no_upgrade :
    ∀ (cfg : LADClientCfg) (pubFs : PubKeyStore) (now : Int)
      (agent : DiscoveredAgent) (token : TokenInput),
    (cfg.signing_available = false →
      verify_signed_agent_card cfg pubFs now agent token
        = Except.ok { agent with
            verification_error := some "Signature verification not available" }) ∧
    (cfg.signing_available = true → cfg.signing_public_key = none →
      verify_signed_agent_card cfg pubFs now agent token
        = Except.ok { agent with
            verification_error := some "No public key for signature verification" }) ∧
    (∀ (path : String) (r : VerificationResult),
      cfg.signing_available = true → cfg.signing_public_key = some path →
      verify_agent_card token none (some path) none pubFs now = Except.ok r →
      r.valid = false →
      ∃ a', verify_signed_agent_card cfg pubFs now agent token = Except.ok a' ∧
        a'.verified = agent.verified ∧
        a'.verification_method = agent.verification_method ∧
        a'.verification_error
          = some ("Signature verification failed: " ++ r.error.getD "None") ∧
        (∀ t, token = TokenInput.wellFormed t → a'.agent_card = t.payload.agent_card) ∧
        (∀ s, token = TokenInput.malformed s → a'.agent_card = agent.agent_card)) := by
  intro cfg pubFs now agent token
  refine ⟨?_, ?_, ?_⟩
  · intro h
    simp [verify_signed_agent_card, h]
  · intro h1 h2
    simp [verify_signed_agent_card, h1, h2]
  · intro path r h1 h2 hv hvalid
    cases token with
    | wellFormed t =>
      refine ⟨{ agent with
          verification_error :=
            some ("Signature verification failed: " ++ r.error.getD "None"),
          agent_card := t.payload.agent_card }, ?_, rfl, rfl, rfl, ?_, ?_⟩
      · simp [verify_signed_agent_card, h1, h2, hv, hvalid]
      · intro t' ht'
        cases ht'
        rfl
      · intro s hs
        cases hs
    | malformed s =>
      refine ⟨{ agent with
          verification_error :=
            some ("Signature verification failed: " ++ r.error.getD "None") },
        ?_, rfl, rfl, rfl, ?_, ?_⟩
      · simp [verify_signed_agent_card, h1, h2, hv, hvalid]
      · intro t' ht'
        cases ht'
      · intro s' hs'
        cases hs'
        rfl

/-- C7 witness: with verification available, a configured key and a
malformed signed response (verification fails with a decode error), the
agent keeps its trust fields untouched and records the error. -/
theorem signed_card_failure_no_upgrade_witness :
    ∃ a', verify_signed_agent_card
        { signing_public_key := some "pub.pem", signing_available := true }
        (fun p => if p == "pub.pem" then some { pairId := 1 } else none) 0
        (mdnsDiscoveredAgent "A" "org" "r" "http://h/.well-known/agent.json")
        (TokenInput.malformed "x") = Except.ok a' ∧
      a'.verified = (mdnsDiscoveredAgent "A" "org" "r" "http://h/.well-known/agent.json").verified ∧
      a'.verification_method
        = (mdnsDiscoveredAgent "A" "org" "r" "http://h/.well-known/agent.json").verification_method ∧
      a'.verification_error
        = some ("Signature verification failed: "
            ++ (({ valid := false,
                   error := some "Failed to decode token: Not enough segments"
                     : VerificationResult }).error.getD "None")) ∧
      (∀ t, TokenInput.malformed "x" = TokenInput.wellFormed t →
        a'.agent_card = t.payload.agent_card) ∧
      (∀ s, TokenInput.malformed "x" = TokenInput.malformed s →
        a'.agent_card
          = (mdnsDiscoveredAgent "A" "org" "r" "http://h/.well-known/agent.json").agent_card) :=
  (signed_card_failure_no_upgrade
      { signing_public_key := some "pub.pem", signing_available := true }
      (fun p => if p == "pub.pem" then some { pairId := 1 } else none) 0
      (mdnsDiscoveredAgent "A" "org" "r" "http://h/.well-known/agent.json")
      (TokenInput.malformed "x")).2.2 "pub.pem"
    { valid := false, error := some "Failed to decode token: Not enough segments" }
    rfl rfl (by decide) rfl

/-! ## C3: the tamper law -/

/-- C3: for a validly signed ES256 token, replacing the content of the
payload segment by any different value makes `verify_agent_card` return a
`VerificationResult` with `valid = false` and the invalid-signature error —
it does not raise.  The signature covers the header and payload segments,
so a well-formed token whose payload no longer matches the signed one fails
the signature check before any claim is examined, whatever public key is
supplied. -/
theorem tampered_payload_invalid_signature
    (t : JwsToken) (pid : Nat) (pub : PubKeyPem) (pubFs : PubKeyStore) (now : Int)
    (hsig : t.signature
      = { pairId := pid, signedHeader := t.header, signedPayload := t.payload })
    (halg : t.header.alg = "ES256")
    (p' : JwtPayload) (hne : p' ≠ t.payload) :
    verify_agent_card
        (TokenInput.wellFormed { t with payload := p' }) (some pub) none none pubFs now
      = Except.ok { valid := false, error := some "Invalid signature" } := by
  have hdec : jwtDecode (TokenInput.wellFormed { t with payload := p' }) pub ["ES256"] now
      = Except.error JwtError.invalidSignature := by
    unfold jwtDecode
    dsimp only
    split
    · split
      next hcontra =>
        exfalso
        rw [hsig] at hcontra
        have hpay : t.payload = p' :=
          by simpa using congrArg JwsSignature.signedPayload hcontra
        exact hne hpay.symm
      next => rfl
    next hnotmem => exact absurd (by simp [halg]) hnotmem
  simp [verify_agent_card, hdec]

/-- C3 witness: the tamper theorem applied to a concrete signed token and a
concrete one-field change of its payload segment. -/
theorem tampered_payload_invalid_signature_witness :
    verify_agent_card
        (TokenInput.wellFormed
          { jwtEncode { agent_card := some (Json.str "c"), iat := some 5 }
              { pairId := 3 } "ES256" none with
            payload := { agent_card := some (Json.str "c"), iat := some 6 } })
        (some { pairId := 3 }) none none (fun _ => none) 100
      = Except.ok { valid := false, error := some "Invalid signature" } :=
  tampered_payload_invalid_signature
    (jwtEncode { agent_card := some (Json.str "c"), iat := some 5 }
      { pairId := 3 } "ES256" none)
    3 { pairId := 3 } (fun _ => none) 100 rfl rfl
    { agent_card := some (Json.str "c"), iat := some 6 } (by decide)

/-! ## C4: the signing round trip -/

/-- C4: verifying a card signed with a private key against the matching
public key succeeds and returns the original card: with signing enabled,
the fixed v1 algorithm ES256 and a readable private key, the token produced
by `sign_agent_card` verifies at any later time to `valid = true` with
`agent_card` equal to the signed card, `signed_at` the signing time and
`key_id` the configured key id. -/
theorem sign_verify_roundtrip
    (card : Json) (config : SigningConfig) (privFs : PrivKeyStore) (pubFs : PubKeyStore)
    (now now2 : Int) (p : String) (k : PrivKeyPem) (tok : JwsToken)
    (henabled : config.enabled = true) (halg : config.algorithm = "ES256")
    (hpath : config.private_key_path = some p) (hkey : privFs p = some k)
    (hsign : sign_agent_card card config privFs now = Except.ok tok) :
    verify_agent_card (TokenInput.wellFormed tok) (some { pairId := k.pairId }) none none
        pubFs now2
      = Except.ok { valid := true, agent_card := some card, signed_at := some now,
                    key_id := config.key_id } := by
  have htok : tok = jwtEncode { agent_card := some card, iat := some now } k
      config.algorithm config.key_id := by
    simp [sign_agent_card, SigningConfig.validate, henabled, hpath, hkey] at hsign
    exact hsign.symm
  subst htok
  simp [verify_agent_card, jwtDecode, jwtEncode, halg]

/-- C4 witness: the round trip at a concrete card, key pair and signing
configuration. -/
theorem sign_verify_roundtrip_witness :
    verify_agent_card
        (TokenInput.wellFormed
          (jwtEncode { agent_card := some (Json.obj [("name", Json.str "X")]), iat := some 11 }
            { pairId := 7 } "ES256" (some "kid1")))
        (some { pairId := 7 }) none none (fun _ => none) 99
      = Except.ok { valid := true, agent_card := some (Json.obj [("name", Json.str "X")]),
                    signed_at := some 11, key_id := some "kid1" } :=
  sign_verify_roundtrip (Json.obj [("name", Json.str "X")])
    { enabled := true, private_key_path := some "k.pem", key_id := some "kid1" }
    (fun q => if q == "k.pem" then some { pairId := 7 } else none) (fun _ => none)
    11 99 "k.pem" { pairId := 7 }
    (jwtEncode { agent_card := some (Json.obj [("name", Json.str "X")]), iat := some 11 }
      { pairId := 7 } "ES256" (some "kid1"))
    rfl rfl rfl (by decide) (by decide)

/-! ## C9: server content negotiation -/

theorem get_signed_agent_card_some_iff (sc : Option SigningConfig) (avail : Bool)
    (card : Json) (privFs : PrivKeyStore) (now : Int) (tok : JwsToken) :
    get_signed_agent_card sc avail card privFs now = some tok ↔
      ∃ c, sc = some c ∧ c.enabled = true ∧ avail = true ∧
        sign_agent_card card c privFs now = Except.ok tok := by
  cases sc with
  | none => simp [get_signed_agent_card]
  | some c =>
    unfold get_signed_agent_card
    cases hen : c.enabled with
    | false => simp [hen]
    | true =>
      cases avail with
      | false => simp [hen]
      | true =>
        cases hs : sign_agent_card card c privFs now with
        | ok t => simp [hen, hs]
        | error e => simp [hen, hs]

theorem agent_card_endpoint_cases (accept : Option String) (sc : Option SigningConfig)
    (avail : Bool) (card : Json) (privFs : PrivKeyStore) (now : Int) :
    (∃ tok, agent_card_endpoint accept sc avail card privFs now
        = CardEndpointResponse.jose tok ∧
      get_signed_agent_card sc avail card privFs now = some tok ∧
      (pyContains (accept.getD "application/json") "application/jose"
          || pyContains (accept.getD "application/json") "text/plain") = true) ∨
    agent_card_endpoint accept sc avail card privFs now
      = CardEndpointResponse.plainJson card := by
  unfold agent_card_endpoint
  dsimp only
  split
  next hcond =>
    split
    next tok hget =>
      exact Or.inl ⟨tok, rfl, hget, (Bool.and_eq_true _ _ |>.mp hcond).1⟩
    next => exact Or.inr rfl
  next => exact Or.inr rfl

/-- C9: the card endpoint returns the signed token with media type
`application/jose` exactly when the `Accept` header contains
`application/jose` or `text/plain`, signing is configured and enabled, and
signing succeeds (module available and `sign_agent_card` returning a
token); in every other case it returns the plain JSON card. -/
theorem card_endpoint_content_negotiation :
    ∀ (accept : Option String) (sc : Option SigningConfig) (avail : Bool)
      (card : Json) (privFs : PrivKeyStore) (now : Int),
    ((∃ tok, agent_card_endpoint accept sc avail card privFs now
        = CardEndpointResponse.jose tok) ↔
      ((pyContains (accept.getD "application/json") "application/jose"
          || pyContains (accept.getD "application/json") "text/plain") = true ∧
        ∃ c, sc = some c ∧ c.enabled = true ∧ avail = true ∧
          ∃ t, sign_agent_card card c privFs now = Except.ok t)) ∧
    (∀ tok, agent_card_endpoint accept sc avail card privFs now
        = CardEndpointResponse.jose tok →
      get_signed_agent_card sc avail card privFs now = some tok) ∧
    ((∀ tok, agent_card_endpoint accept sc avail card privFs now
        ≠ CardEndpointResponse.jose tok) →
      agent_card_endpoint accept sc avail card privFs now
        = CardEndpointResponse.plainJson card) := by
  intro accept sc avail card privFs now
  refine ⟨⟨?_, ?_⟩, ?_, ?_⟩
  · intro ⟨tok, h⟩
    rcases agent_card_endpoint_cases accept sc avail card privFs now with
      ⟨tok', h', hget, hw⟩ | h'
    · rw [h] at h'
      obtain rfl := CardEndpointResponse.jose.inj h'.symm
      obtain ⟨c, rfl, hen, hav, hs⟩ := (get_signed_agent_card_some_iff _ _ _ _ _ _).mp hget
      exact ⟨hw, c, rfl, hen, hav, tok', hs⟩
    · rw [h] at h'
      cases h'
  · rintro ⟨hw, c, rfl, hen, hav, t, hs⟩
    have hget : get_signed_agent_card (some c) avail card privFs now = some t :=
      (get_signed_agent_card_some_iff _ _ _ _ _ _).mpr ⟨c, rfl, hen, hav, hs⟩
    refine ⟨t, ?_⟩
    unfold agent_card_endpoint
    dsimp only
    rw [if_pos, hget]
    simp [hw, hen]
  · intro tok h
    rcases agent_card_endpoint_cases accept sc avail card privFs now with
      ⟨tok', h', hget, hw⟩ | h'
    · rw [h] at h'
      obtain rfl := CardEndpointResponse.jose.inj h'.symm
      exact hget
    · rw [h] at h'
      cases h'
  · intro h
    rcases agent_card_endpoint_cases accept sc avail card privFs now with
      ⟨tok', h', hget, hw⟩ | h'
    · exact absurd h' (h tok')
    · exact h'

/-- C9 witness: with `Accept: application/jose`, signing enabled and a
readable key, the served token is the signed card — the theorem applied at
concrete inputs, both through the jose characterization and directly. -/
theorem card_endpoint_content_negotiation_witness :
    get_signed_agent_card
        (some { enabled := true, private_key_path := some "k.pem" }) true
        (Json.str "card")
        (fun q => if q == "k.pem" then some { pairId := 7 } else none) 5
      = some (jwtEncode { agent_card := some (Json.str "card"), iat := some 5 }
          { pairId := 7 } "ES256" none) ∧
    (∃ tok, agent_card_endpoint (some "application/jose")
        (some { enabled := true, private_key_path := some "k.pem" }) true
        (Json.str "card")
        (fun q => if q == "k.pem" then some { pairId := 7 } else none) 5
      = CardEndpointResponse.jose tok) :=
  ⟨(card_endpoint_content_negotiation (some "application/jose")
      (some { enabled := true, private_key_path := some "k.pem" }) true
      (Json.str "card")
      (fun q => if q == "k.pem" then some { pairId := 7 } else none) 5).2.1
      (jwtEncode { agent_card := some (Json.str "card"), iat := some 5 }
        { pairId := 7 } "ES256" none) (by decide),
   (card_endpoint_content_negotiation (some "application/jose")
      (some { enabled := true, private_key_path := some "k.pem" }) true
      (Json.str "card")
      (fun q => if q == "k.pem" then some { pairId := 7 } else none) 5).1.mpr
      ⟨by decide, { enabled := true, private_key_path := some "k.pem" }, rfl, rfl, rfl,
        jwtEncode { agent_card := some (Json.str "card"), iat := some 5 }
          { pairId := 7 } "ES256" none, by decide⟩⟩

/-! ## C10: totality of `verify_agent_card` -/

/-- C10 counterexample: `verify_agent_card` is not total.  With no
`public_key_pem` and an unreadable `public_key_path`, the key-file read —
which happens before the `try` block — raises the file error instead of
returning a `VerificationResult`. -/
theorem verify_agent_card_raises_on_unreadable_path :
    verify_agent_card (TokenInput.malformed "x") none (some "missing.pem") none
        (fun _ => none) 0
      = Except.error "FileNotFoundError: missing.pem" := by decide

/-- C10 (amended): `verify_agent_card` returns a `VerificationResult` for
every token and key combination except the unreadable-key-path case: when
neither key argument is supplied it returns `valid = false` with the
no-public-key error rather than raising, and whenever a key is available —
passed as PEM bytes, or loaded from a readable path — every `jwt`
exception is converted into a `valid = false` result, so the call returns
normally on every token. -/
theorem verify_agent_card_total_cases :
    ∀ (token : TokenInput) (algs : Option (List String)) (pubFs : PubKeyStore) (now : Int),
    (verify_agent_card token none none algs pubFs now
        = Except.ok { valid := false,
                      error := some "No public key provided for verification" }) ∧
    (∀ k path, ∃ r, verify_agent_card token (some k) path algs pubFs now = Except.ok r) ∧
    (∀ p k, pubFs p = some k →
      ∃ r, verify_agent_card token none (some p) algs pubFs now = Except.ok r) := by
  intro token algs pubFs now
  refine ⟨rfl, ?_, ?_⟩
  · intro k path
    cases path <;> exact ⟨_, rfl⟩
  · intro p k hk
    unfold verify_agent_card
    dsimp only
    rw [hk]
    exact ⟨_, rfl⟩

/-- C10 witness: the amended totality theorem at a malformed token — no key
at all yields the no-public-key result, and a readable key path yields a
normal `VerificationResult`. -/
theorem verify_agent_card_total_cases_witness :
    (verify_agent_card (TokenInput.malformed "x") none none none (fun _ => none) 0
        = Except.ok { valid := false,
                      error := some "No public key provided for verification" }) ∧
    (∃ r, verify_agent_card (TokenInput.malformed "x") none (some "pub.pem") none
        (fun p => if p == "pub.pem" then some { pairId := 1 } else none) 0
      = Except.ok r) :=
  ⟨(verify_agent_card_total_cases (TokenInput.malformed "x") none (fun _ => none) 0).1,
   (verify_agent_card_total_cases (TokenInput.malformed "x") none
      (fun p => if p == "pub.pem" then some { pairId := 1 } else none) 0).2.2
      "pub.pem" { pairId := 1 } (by decide)⟩

end LadA2A
